import Mathlib

/-
Verification of the TalosPrincipleArchipelagoClient core:
identifier resolution (ItemMapping.cpp), collection-state reconciliation
(InventorySync.cpp), the death-link hook (DeathLinkHandler.cpp) and the
visibility debounce loop (scripts/main.lua), as a shallow embedding.
-/

namespace TalosAP

/-- All tetromino IDs, in the order of the static table ALL_TETROMINOES in
ItemMapping.cpp (location IDs are assigned sequentially in this order). -/
def ALL_TETROMINOES : List String := [
  -- World A1 (7)
  "DJ3",  "MT1",  "DZ1",  "DJ2",  "DJ1",  "ML1",  "DI1",
  -- World A2 (3)
  "ML2",  "DL1",  "DZ2",
  -- World A3 (4)
  "MT2",  "DZ3",  "NL1",  "MT3",
  -- World A4 (4)
  "MZ1",  "MZ2",  "MT4",  "MT5",
  -- World A5 (5)
  "NZ1",  "DI2",  "DT1",  "DT2",  "DL2",
  -- World A6 (4)
  "DZ4",  "NL2",  "NL3",  "NZ2",
  -- World A7 (5)
  "NL4",  "DL3",  "NT1",  "NO1",  "DT3",
  -- World B1 (5)
  "ML3",  "MZ3",  "MS1",  "MT6",  "MT7",
  -- World B2 (4)
  "NL5",  "MS2",  "MT8",  "MZ4",
  -- World B3 (4)
  "MT9",  "MJ1",  "NT2",  "NL6",
  -- World B4 (6)
  "NT3",  "NT4",  "DT4",  "DJ4",  "NL7",  "NL8",
  -- World B5 (5)
  "NI1",  "NL9",  "NS1",  "DJ5",  "NZ3",
  -- World B6 (3)
  "NI2",  "MT10", "ML4",
  -- World B7 (4)
  "NJ1",  "NI3",  "MO1",  "MI1",
  -- World C1 (4)
  "NZ4",  "NJ2",  "NI4",  "NT5",
  -- World C2 (4)
  "NZ5",  "NO2",  "NT6",  "NS2",
  -- World C3 (4)
  "NJ3",  "NO3",  "NZ6",  "NT7",
  -- World C4 (4)
  "NT8",  "NI5",  "NS3",  "NT9",
  -- World C5 (4)
  "NI6",  "NO4",  "NO5",  "NT10",
  -- World C6 (3)
  "NS4",  "NJ4",  "NO6",
  -- World C7 (4)
  "NT11", "NO7",  "NT12", "NL10"]

/-- Purple sigils HL1 to HL24, as in the static table ALL_PURPLE_SIGILS. -/
def ALL_PURPLE_SIGILS : List String := [
  "HL1",  "HL2",  "HL3",  "HL4",  "HL5",  "HL6",
  "HL7",  "HL8",  "HL9",  "HL10", "HL11", "HL12",
  "HL13", "HL14", "HL15", "HL16", "HL17", "HL18",
  "HL19", "HL20", "HL21", "HL22", "HL23", "HL24"]

/-- Stars in AP world order, as in the static table ALL_STARS. -/
def ALL_STARS : List String := [
  "SL5",  "SL2",  "SZ3",  "SL1",  "SL4",  "SL7",
  "SL6",  "SZ8",  "SL9",  "SL10", "SL11", "SL12",
  "SL13", "SZ24", "SZ14", "SZ15", "SL16", "SL17",
  "SL18", "SL19", "SL20", "SL21", "SL22", "SL23",
  "SL27", "SL29", "SL30", "SZ26", "SL25", "SL28"]

/-- Embeds ExtractPrefix in ItemMapping.cpp: the leading run of alphabetic
characters of a tetromino ID (for example DJ3 gives DJ). -/
def extractPfx (tetId : String) : String :=
  String.mk (tetId.toList.takeWhile Char.isAlpha)

/-- Embeds ExtractNumber in ItemMapping.cpp: the numeric suffix after the
alphabetic run, via stoi (every suffix occurring in the tables is a plain
digit string; an empty remainder yields 0, as in the source). -/
def extractNum (tetId : String) : Nat :=
  ((tetId.toList.dropWhile Char.isAlpha).takeWhile Char.isDigit).foldl
    (fun acc c => acc * 10 + (c.toNat - 48)) 0

/-- Insertion by embedded number, used to embed the std sort call in
BuildSequences (within one bucket all embedded numbers are distinct, so
any comparison sort produces this unique result). -/
def insertByNum (x : String) : List String → List String
  | [] => [x]
  | y :: ys =>
    if extractNum x ≤ extractNum y then x :: y :: ys else y :: insertByNum x ys

/-- Sort a bucket of IDs by embedded number. -/
def sortByNum (l : List String) : List String := l.foldr insertByNum []

/-- The IDs fed to addSequences in BuildSequences (tetrominoes, then purple
sigils; stars are deliberately not added there). -/
def baseSeqIds : List String := ALL_TETROMINOES ++ ALL_PURPLE_SIGILS

/-- The unified star sequence built at the end of BuildSequences:
asterisk-asterisk-1 up to asterisk-asterisk-30. -/
def starSequence : List String :=
  (List.range ALL_STARS.length).map (fun i => "**" ++ toString (i + 1))

/-- Embeds the m_tetrominoSequences map built by BuildSequences: for a type
letter pair p, the bucket of base IDs with that extracted pair, sorted by
embedded number; the star key maps to the unified star sequence; keys not
produced by the build are absent. -/
def tetrominoSequences (p : String) : Option (List String) :=
  if p = "**" then some starSequence
  else if p ≠ "" ∧ p ∈ baseSeqIds.map extractPfx then
    some (sortByNum (baseSeqIds.filter (fun s => extractPfx s = p)))
  else none

/-- Embeds m_apItemIdToPrefix from the ItemMapping constructor:
AP numeric item ID to type pair. -/
def apItemIdTable : List (Int × String) := [
  (0x540000, "DJ"), (0x540001, "DZ"), (0x540002, "DI"), (0x540003, "DL"),
  (0x540004, "DT"), (0x540005, "MT"), (0x540006, "ML"), (0x540007, "MZ"),
  (0x540008, "MS"), (0x540009, "MJ"), (0x54000A, "MO"), (0x54000B, "MI"),
  (0x54000C, "NL"), (0x54000D, "NZ"), (0x54000E, "NT"), (0x54000F, "NI"),
  (0x540010, "NJ"), (0x540011, "NO"), (0x540012, "NS"), (0x540013, "HL"),
  (0x540014, "**")]

/-- Lookup of the type pair for an AP item ID (the map find at the top of
ResolveNextItem). -/
def lookupPfx (apItemId : Int) : Option String := apItemIdTable.lookup apItemId

/-- BASE_LOCATION_ID from ItemMapping.h. -/
def BASE_LOCATION_ID : Int := 0x540000

/-- Location names in table order: tetrominoes, purple sigils, stars
(BuildTables assigns sequential location IDs in exactly this order). -/
def allLocationNames : List String :=
  ALL_TETROMINOES ++ ALL_PURPLE_SIGILS ++ ALL_STARS

/-- Embeds ItemMapping::GetLocationId: BASE_LOCATION_ID plus the index of
the name in the build order, and -1 for unknown names. -/
def getLocationId (tetrominoId : String) : Int :=
  match allLocationNames.indexOf? tetrominoId with
  | some i => BASE_LOCATION_ID + i
  | none => -1

/-- Embeds ItemMapping::IsPurpleSigil. -/
def isPurpleSigil (id : String) : Bool :=
  let cs := id.toList
  decide (3 ≤ cs.length) && (cs.getD 0 ' ' == 'H') && (cs.getD 1 ' ' == 'L')

/-- Embeds ItemMapping::IsStar. -/
def isStar (id : String) : Bool :=
  let cs := id.toList
  if cs.length < 3 then false
  else if cs.getD 0 ' ' == '*' && cs.getD 1 ' ' == '*' then true
  else if cs.getD 0 ' ' == 'S' && (cs.getD 1 ' ' == 'L' || cs.getD 1 ' ' == 'Z')
    then true
  else false

/-- Embeds m_modIdToGameKey built by BuildGameKeyMappings: star mod IDs to
the TMap key form used by the game. -/
def modIdToGameKey : List (String × String) :=
  ALL_STARS.map (fun starId => (starId, "**" ++ toString (extractNum starId)))

/-- Embeds m_gameKeyToModId built by BuildGameKeyMappings. -/
def gameKeyToModId : List (String × String) :=
  ALL_STARS.map (fun starId => ("**" ++ toString (extractNum starId), starId))

/-- Embeds ItemMapping::ToGameKey: translation table hit, or identity. -/
def toGameKey (modId : String) : String :=
  (modIdToGameKey.lookup modId).getD modId

/-- Embeds ItemMapping::FromGameKey: translation table hit, or identity. -/
def fromGameKey (gameKey : String) : String :=
  (gameKeyToModId.lookup gameKey).getD gameKey

/-- The per-session received counters m_receivedCounts; absent entries
default to zero exactly as operator-bracket insertion does in the source. -/
abbrev Counts := String → Nat

/-- The all-zero counter table (a fresh session, or after
ResetItemCounters). -/
def zeroCounts : Counts := fun _ => 0

/-- Embeds ItemMapping::ResolveNextItem: look up the type pair, look up its
sequence, increment the counter (also on exhaustion), and return the entry
at the new one-based count, or none on unknown ID or exhaustion. -/
def resolveNextItem (counts : Counts) (apItemId : Int) : Option String × Counts :=
  match lookupPfx apItemId with
  | none => (none, counts)
  | some p =>
    match tetrominoSequences p with
    | none => (none, counts)
    | some seq =>
      if seq.isEmpty then (none, counts)
      else
        let count := counts p + 1
        let counts' : Counts := fun q => if q = p then count else counts q
        if seq.length < count then (none, counts')
        else (seq.get? (count - 1), counts')

/-- Counter table after n further grants of the same AP item ID. -/
def countsAfterMoreGrants (counts : Counts) (apItemId : Int) : Nat → Counts
  | 0 => counts
  | n + 1 => (resolveNextItem (countsAfterMoreGrants counts apItemId n) apItemId).2

/-- Counter table after n grants of one AP item ID starting from zero. -/
def countsAfterGrants (apItemId : Int) (n : Nat) : Counts :=
  countsAfterMoreGrants zeroCounts apItemId n

/-- Result of the i-th grant (one-based) of one AP item ID starting from
zero received counts. -/
def nthGrantResult (apItemId : Int) (i : Nat) : Option String :=
  (resolveNextItem (countsAfterGrants apItemId (i - 1)) apItemId).1

/-- The mutable session state (the ModState fields referenced by
InventorySync.cpp and DeathLinkHandler.cpp). The two std sets are modelled
as lists of distinct members; the flags are as in the source. -/
structure ModState where
  GrantedItems : List String
  CheckedLocations : List String
  RandomisePurpleSigils : Bool
  RandomiseStars : Bool
  ReusableTetrominos : Bool
  APSynced : Bool
  DeathLinkEnabled : Bool
  IsDeathLinkDeath : Bool
  PendingDeathLinkSend : Bool
  PendingDeferredDeathLink : Bool
deriving DecidableEq

/-- A fully cleared session state, used as the base for concrete test
states. -/
def testState : ModState :=
  ⟨[], [], false, false, false, false, false, false, false, false⟩

/-- Embeds InventorySync::GrantItem: insert the ID into the GrantedItems
set (the TMap is deliberately not touched there). -/
def grantItem (st : ModState) (tetrominoId : String) : ModState :=
  { st with GrantedItems :=
      if st.GrantedItems.contains tetrominoId then st.GrantedItems
      else tetrominoId :: st.GrantedItems }

/-- Embeds InventorySync::RevokeItem: erase the ID from both GrantedItems
and CheckedLocations. -/
def revokeItem (st : ModState) (tetrominoId : String) : ModState :=
  { st with
    GrantedItems := st.GrantedItems.filter (fun s => !(s == tetrominoId)),
    CheckedLocations := st.CheckedLocations.filter (fun s => !(s == tetrominoId)) }

/-- The CollectedTetrominos TMap of the world store: game-format key to the
used flag, keys unique in a real TMap. -/
abbrev TetMap := List (String × Bool)

/-- TMap::Remove on a key. -/
def tmapRemove (m : TetMap) (k : String) : TetMap :=
  m.filter (fun q => !(q.1 == k))

/-- TMap::Find on a key. -/
def tmapFind (m : TetMap) (k : String) : Option Bool :=
  match m with
  | [] => none
  | q :: rest => if q.1 = k then some q.2 else tmapFind rest k

/-- TMap::Add: replace the value under an existing key, or append a new
entry. -/
def tmapAdd (m : TetMap) (k : String) (v : Bool) : TetMap :=
  if (tmapFind m k).isSome then
    m.map (fun q => if q.1 = k then (q.1, v) else q)
  else m ++ [(k, v)]

/-- The phase-1 predicate of EnforceCollectionState: a TMap key is marked
for removal when it is nonempty, its translated mod ID is recognised
(GetLocationId is nonnegative), it survives the purple-sigil and star
configuration filters, and its lookup key (the game key for stars, the mod
ID otherwise) is not in GrantedItems. -/
def shouldRemoveKey (st : ModState) (gameKey : String) : Bool :=
  if gameKey = "" then false
  else
    let modId := fromGameKey gameKey
    if getLocationId modId < 0 then false
    else if !st.RandomisePurpleSigils && isPurpleSigil modId then false
    else if !st.RandomiseStars && isStar modId then false
    else
      let lookupKey := if isStar modId then gameKey else modId
      !(st.GrantedItems.contains lookupKey)

/-- The loop body of phase 2 of EnforceCollectionState for one granted ID:
add its game key to the TMap with the unused value when absent, counting
the add. -/
def addGrantedStep (acc : TetMap × Nat) (id : String) : TetMap × Nat :=
  let gameKey := toGameKey id
  if (tmapFind acc.1 gameKey).isSome then acc
  else (tmapAdd acc.1 gameKey false, acc.2 + 1)

/-- Phase 2 of EnforceCollectionState over the whole granted set; the
second component counts the adds performed. -/
def addGranted (store : TetMap) (ids : List String) : TetMap × Nat :=
  ids.foldl addGrantedStep (store, 0)

/-- The store component of phase 2 in isolation (the add counter does not
influence the store evolution). -/
def addGrantedStore (store : TetMap) (ids : List String) : TetMap :=
  ids.foldl (fun s id =>
    if (tmapFind s (toGameKey id)).isSome then s
    else tmapAdd s (toGameKey id) false) store

/-- Phase 3 of EnforceCollectionState (ReusableTetrominos): reset every set
used flag; the second component counts the flag writes performed. -/
def resetUsed (store : TetMap) : TetMap × Nat :=
  (store.map (fun q => if q.2 then (q.1, false) else q),
   (store.filter (fun q => q.2)).length)

/-- Tally of one EnforceCollectionState pass: the resulting store and the
numbers of Remove, Add and used-flag write operations issued. -/
structure EnforceResult where
  store : TetMap
  removes : Nat
  adds : Nat
  usedWrites : Nat
deriving DecidableEq

/-- Embeds InventorySync::EnforceCollectionState on an acquired store (the
progress-object and TMap acquisition is host-side; the APSynced gate is
modelled, and the pass is a no-op when it is down). Phase 1 collects the
keys marked by shouldRemoveKey and removes each; phase 2 ensures granted
items are present; phase 3 optionally resets used flags. -/
def enforceCollectionState (st : ModState) (store : TetMap) : EnforceResult :=
  if !st.APSynced then ⟨store, 0, 0, 0⟩
  else
    let toRemove := (store.map Prod.fst).filter (shouldRemoveKey st)
    let store1 := toRemove.foldl tmapRemove store
    let added := addGranted store1 st.GrantedItems
    if st.ReusableTetrominos then
      let reset := resetUsed added.1
      ⟨reset.1, toRemove.length, added.2, reset.2⟩
    else ⟨added.1, toRemove.length, added.2, 0⟩




/-- The session state of the reconciliation scenario in the spec: DJ1
granted, synced, all randomised categories enabled. -/
def scenarioState : ModState :=
  { testState with APSynced := true, RandomisePurpleSigils := true,
                   RandomiseStars := true, GrantedItems := ["DJ1"] }

/-- The store snapshot of the reconciliation scenario in the spec. -/
def scenarioStore : TetMap := [("DJ1", false), ("DJ2", false)]

/-- Embeds the SetDeath hook body registered by
DeathLinkHandler::RegisterHooks: when death link is disabled the hook does
nothing; when the echo-suppress flag IsDeathLinkDeath is set it is consumed
(one-shot guard) without queueing a send; otherwise PendingDeathLinkSend is
set. -/
def deathHookOnSetDeath (st : ModState) : ModState :=
  if !st.DeathLinkEnabled then st
  else if st.IsDeathLinkDeath then { st with IsDeathLinkDeath := false }
  else { st with PendingDeathLinkSend := true }

/-- The two presentation states the visibility loop in scripts/main.lua can
apply to an item actor (SetTetrominoVisible and SetTetrominoHidden). -/
inductive Pres where
  | visible
  | hidden
deriving DecidableEq

/-- One pass of the visibility loop over one item actor. The classifiers
sbc, chk and gr stand for Collection.ShouldBeCollectable,
Collection.IsLocationChecked and Collection.IsGranted, which live outside
the loop; the claim under proof is parametric in them. The VisibilityApplied
table, the count of presentation calls issued and the count of TMap removes
are threaded through. -/
structure VisOut where
  applied : String → Option Pres
  presCalls : Nat
  tmapRemoves : Nat

/-- The body of the visibility loop in scripts/main.lua for one item with
ID id: a collectable item is removed from the TMap every pass, but
SetTetrominoVisible is issued only when the tracked applied state differs;
a checked-but-not-granted item gets SetTetrominoHidden under the same
debounce; anything else is untouched. -/
def visItemStep (sbc chk gr : String → Bool) (acc : VisOut) (id : String) : VisOut :=
  if sbc id then
    let acc1 : VisOut := { acc with tmapRemoves := acc.tmapRemoves + 1 }
    if acc1.applied id ≠ some Pres.visible then
      { acc1 with
        applied := fun j => if j = id then some Pres.visible else acc1.applied j,
        presCalls := acc1.presCalls + 1 }
    else acc1
  else if chk id && !(gr id) then
    if acc.applied id ≠ some Pres.hidden then
      { acc with
        applied := fun j => if j = id then some Pres.hidden else acc.applied j,
        presCalls := acc.presCalls + 1 }
    else acc
  else acc

/-- One iteration of the visibility loop over the item actors found this
tick, starting from the persisted VisibilityApplied table. -/
def visLoop (sbc chk gr : String → Bool) (applied0 : String → Option Pres)
    (ids : List String) : VisOut :=
  ids.foldl (visItemStep sbc chk gr) ⟨applied0, 0, 0⟩

/-- The target presentation of an item under fixed classification: the
branch of the loop body that would fire for it. -/
def visTarget (sbc chk gr : String → Bool) (id : String) : Option Pres :=
  if sbc id then some Pres.visible
  else if chk id && !(gr id) then some Pres.hidden
  else none

/-- An applied-state table already records the target presentation of item
j whenever j has one. -/
def SettledAt (sbc chk gr : String → Bool) (a : String → Option Pres)
    (j : String) : Prop :=
  ∀ t, visTarget sbc chk gr j = some t → a j = some t


/-- For a known item ID with a nonempty sequence, one resolution step
increments exactly the counter of its own type pair, whether or not the
sequence is exhausted. -/
theorem resolveNextItem_counts (counts : Counts) (apItemId : Int) (p : String)
    (seq : List String) (hp : lookupPfx apItemId = some p)
    (hs : tetrominoSequences p = some seq) (hne : seq.isEmpty = false) :
    (resolveNextItem counts apItemId).2 =
      fun q => if q = p then counts p + 1 else counts q := by
  simp only [resolveNextItem, hp, hs, hne, Bool.false_eq_true, if_false]
  split <;> rfl

/-- For a known item ID with a nonempty sequence, the result of one
resolution step is the entry at the incremented counter, or none past the
end of the sequence. -/
theorem resolveNextItem_fst (counts : Counts) (apItemId : Int) (p : String)
    (seq : List String) (hp : lookupPfx apItemId = some p)
    (hs : tetrominoSequences p = some seq) (hne : seq.isEmpty = false) :
    (resolveNextItem counts apItemId).1 =
      if seq.length < counts p + 1 then none else seq.get? (counts p) := by
  simp only [resolveNextItem, hp, hs, hne, Bool.false_eq_true, if_false]
  split <;> rfl

/-- Repeated grants of one known item ID advance exactly its own counter,
one per grant. -/
theorem countsAfterMoreGrants_eq (counts : Counts) (apItemId : Int) (p : String)
    (seq : List String) (hp : lookupPfx apItemId = some p)
    (hs : tetrominoSequences p = some seq) (hne : seq.isEmpty = false) :
    ∀ n, countsAfterMoreGrants counts apItemId n =
      fun q => if q = p then counts p + n else counts q := by
  intro n
  induction n with
  | zero =>
    funext q
    by_cases h : q = p <;> simp [countsAfterMoreGrants, h]
  | succ n ih =>
    funext q
    rw [countsAfterMoreGrants, ih,
      resolveNextItem_counts _ apItemId p seq hp hs hne]
    by_cases h : q = p <;> simp [h, Nat.add_assoc]

/-- Starting from zero, n grants of one known item ID leave its counter at
n and every other counter at zero. -/
theorem countsAfterGrants_eq (apItemId : Int) (p : String)
    (seq : List String) (hp : lookupPfx apItemId = some p)
    (hs : tetrominoSequences p = some seq) (hne : seq.isEmpty = false)
    (n : Nat) :
    countsAfterGrants apItemId n = fun q => if q = p then n else 0 := by
  rw [countsAfterGrants, countsAfterMoreGrants_eq zeroCounts apItemId p seq hp hs hne n]
  funext q
  by_cases h : q = p <;> simp [h, zeroCounts]

/-- The i-th grant from zero counts resolves to the entry at index i-1 when
in range, and to none when the sequence is shorter than i. -/
theorem nthGrantResult_spec (apItemId : Int) (p : String) (seq : List String)
    (hp : lookupPfx apItemId = some p) (hs : tetrominoSequences p = some seq)
    (hne : seq.isEmpty = false) (i : Nat) (h1 : 1 ≤ i) :
    nthGrantResult apItemId i =
      if seq.length < i then none else seq.get? (i - 1) := by
  rw [nthGrantResult, countsAfterGrants_eq apItemId p seq hp hs hne,
    resolveNextItem_fst _ apItemId p seq hp hs hne]
  simp only [if_pos rfl, if_true]
  have hi : i - 1 + 1 = i := by omega
  rw [hi]

/-- C1. Resolution determinism: starting from zero received counts, for
every AP numeric item ID known to the registry (it maps to a type pair
whose sequence is in the table) and every i with 1 ≤ i ≤ len(sequence),
the i-th call to ResolveNextItem returns sequence entry i-1, and the
call number len+1 returns none (Exhausted). -/
theorem resolution_determinism (apItemId : Int) (p : String) (seq : List String)
    (hp : lookupPfx apItemId = some p) (hs : tetrominoSequences p = some seq)
    (i : Nat) (h1 : 1 ≤ i) (h2 : i ≤ seq.length) :
    nthGrantResult apItemId i = seq.get? (i - 1) ∧
    nthGrantResult apItemId (seq.length + 1) = none := by
  have hne : seq.isEmpty = false := by
    cases seq with
    | nil => simp at h2; omega
    | cons a l => rfl
  constructor
  · rw [nthGrantResult_spec apItemId p seq hp hs hne i h1]
    rw [if_neg (by omega)]
  · rw [nthGrantResult_spec apItemId p seq hp hs hne (seq.length + 1) (by omega)]
    rw [if_pos (by omega)]

/-- Witness for C1 at the concrete item ID 0x540000 (Green J) with i = 1:
the hypotheses hold and the first grant resolves to DJ1 while grant six
is exhausted. -/
theorem resolution_determinism_witness :
    lookupPfx 0x540000 = some "DJ" ∧
    tetrominoSequences "DJ" = some ["DJ1", "DJ2", "DJ3", "DJ4", "DJ5"] ∧
    (1 ≤ 1 ∧ 1 ≤ (["DJ1", "DJ2", "DJ3", "DJ4", "DJ5"] : List String).length) ∧
    nthGrantResult 0x540000 1 = some "DJ1" ∧
    nthGrantResult 0x540000 6 = none := by
  have h := resolution_determinism 0x540000 "DJ" ["DJ1", "DJ2", "DJ3", "DJ4", "DJ5"]
    (by decide) (by decide) 1 (by decide) (by decide)
  exact ⟨by decide, by decide, ⟨by decide, by decide⟩, h.1, h.2⟩

/-- C2 counterexample: the fourth grant of item 0x540000 resolves to DJ4
rather than failing, because the DJ sequence built from ALL_TETROMINOES has
five entries (DJ1 to DJ5), not three. -/
theorem dj_fourth_grant_not_exhausted :
    nthGrantResult 0x540000 4 = some "DJ4" ∧
    nthGrantResult 0x540000 4 ≠ none := by decide

/-- C2 (amended): item 0x540000 (type pair DJ) has the five-entry sequence
DJ1..DJ5; granted six times from zero counts, the grants resolve to DJ1,
DJ2, DJ3, DJ4, DJ5 and the sixth fails (Exhausted). -/
theorem dj_grant_run :
    tetrominoSequences "DJ" = some ["DJ1", "DJ2", "DJ3", "DJ4", "DJ5"] ∧
    nthGrantResult 0x540000 1 = some "DJ1" ∧
    nthGrantResult 0x540000 2 = some "DJ2" ∧
    nthGrantResult 0x540000 3 = some "DJ3" ∧
    nthGrantResult 0x540000 4 = some "DJ4" ∧
    nthGrantResult 0x540000 5 = some "DJ5" ∧
    nthGrantResult 0x540000 6 = none := by decide

/-- C7. Exhausted resolution: when the received count of a known item has
already reached the sequence length, the call fails, the only state change
is that the counter of that type pair still increments by one, and every
further resolution of that item also fails. -/
theorem exhausted_grant_drops (counts : Counts) (apItemId : Int) (p : String)
    (seq : List String) (hp : lookupPfx apItemId = some p)
    (hs : tetrominoSequences p = some seq) (hne : seq.isEmpty = false)
    (hc : seq.length ≤ counts p) :
    (resolveNextItem counts apItemId).1 = none ∧
    (resolveNextItem counts apItemId).2 p = counts p + 1 ∧
    (∀ q, q ≠ p → (resolveNextItem counts apItemId).2 q = counts q) ∧
    (∀ n, (resolveNextItem (countsAfterMoreGrants counts apItemId n) apItemId).1 = none) := by
  refine ⟨?_, ?_, ?_, ?_⟩
  · rw [resolveNextItem_fst counts apItemId p seq hp hs hne, if_pos (by omega)]
  · rw [resolveNextItem_counts counts apItemId p seq hp hs hne]
    simp
  · intro q hq
    rw [resolveNextItem_counts counts apItemId p seq hp hs hne]
    simp [hq]
  · intro n
    rw [countsAfterMoreGrants_eq counts apItemId p seq hp hs hne n,
      resolveNextItem_fst _ apItemId p seq hp hs hne]
    simp only [if_pos rfl, if_true]
    rw [if_pos (by omega)]

/-- Witness for C7: the DJ counter already at five (the DJ sequence
length); resolving item 0x540000 fails, bumps only the DJ counter, and
three further grants later it still fails. -/
theorem exhausted_grant_drops_witness :
    (resolveNextItem (fun q => if q = "DJ" then 5 else 0) 0x540000).1 = none ∧
    (resolveNextItem (fun q => if q = "DJ" then 5 else 0) 0x540000).2 "DJ" = 6 ∧
    (resolveNextItem (fun q => if q = "DJ" then 5 else 0) 0x540000).2 "MT" = 0 ∧
    (resolveNextItem
      (countsAfterMoreGrants (fun q => if q = "DJ" then 5 else 0) 0x540000 3)
      0x540000).1 = none := by
  have h := exhausted_grant_drops (fun q => if q = "DJ" then 5 else 0) 0x540000
    "DJ" ["DJ1", "DJ2", "DJ3", "DJ4", "DJ5"]
    (by decide) (by decide) (by decide) (by decide)
  exact ⟨h.1, h.2.1, h.2.2.1 "MT" (by decide), h.2.2.2 3⟩

/-- C10. Unknown-ID drop: resolving an AP item ID that is not in the
registry table fails and leaves every received counter unchanged, so any
later resolution behaves exactly as if the unknown grant had never
arrived. -/
theorem unknown_item_id_ignored (counts : Counts) (apItemId : Int)
    (h : lookupPfx apItemId = none) :
    (resolveNextItem counts apItemId).1 = none ∧
    (resolveNextItem counts apItemId).2 = counts ∧
    ∀ otherId, resolveNextItem ((resolveNextItem counts apItemId).2) otherId =
      resolveNextItem counts otherId := by
  simp [resolveNextItem, h]

/-- Witness for C10 at the unknown ID 0x999999: the grant is dropped
without touching the counters, and a following grant of 0x540000 is
unaffected. -/
theorem unknown_item_id_ignored_witness :
    (resolveNextItem zeroCounts 0x999999).1 = none ∧
    (resolveNextItem zeroCounts 0x999999).2 = zeroCounts ∧
    resolveNextItem ((resolveNextItem zeroCounts 0x999999).2) 0x540000 =
      resolveNextItem zeroCounts 0x540000 := by
  have h := unknown_item_id_ignored zeroCounts 0x999999 (by decide)
  exact ⟨h.1, h.2.1, h.2.2 0x540000⟩

/-- C6. Link echo suppression: with death link enabled, a local defeat
observed by the SetDeath hook while the echo-suppress flag is set queues
no outbound send (PendingDeathLinkSend is exactly what it was), and the
flag is consumed by that single observation, so the next observed defeat
queues a send normally. -/
theorem link_echo_suppression (st : ModState)
    (hen : st.DeathLinkEnabled = true) (hflag : st.IsDeathLinkDeath = true) :
    (deathHookOnSetDeath st).PendingDeathLinkSend = st.PendingDeathLinkSend ∧
    (deathHookOnSetDeath st).IsDeathLinkDeath = false ∧
    (deathHookOnSetDeath (deathHookOnSetDeath st)).PendingDeathLinkSend = true := by
  simp [deathHookOnSetDeath, hen, hflag]

/-- Witness for C6 at a concrete state with the echo-suppress flag set. -/
theorem link_echo_suppression_witness :
    (deathHookOnSetDeath
      { testState with DeathLinkEnabled := true, IsDeathLinkDeath := true }).PendingDeathLinkSend =
      ({ testState with DeathLinkEnabled := true, IsDeathLinkDeath := true } : ModState).PendingDeathLinkSend ∧
    (deathHookOnSetDeath
      { testState with DeathLinkEnabled := true, IsDeathLinkDeath := true }).IsDeathLinkDeath = false ∧
    (deathHookOnSetDeath (deathHookOnSetDeath
      { testState with DeathLinkEnabled := true, IsDeathLinkDeath := true })).PendingDeathLinkSend = true :=
  link_echo_suppression
    { testState with DeathLinkEnabled := true, IsDeathLinkDeath := true } rfl rfl

/-- C8 counterexample: RevokeItem erases the revoked ID from
CheckedLocations, so the revoke operation does not leave CheckedLocations
unchanged. -/
theorem revoke_mutates_checked :
    (revokeItem
      { testState with GrantedItems := ["DJ1"], CheckedLocations := ["DJ1"] }
      "DJ1").CheckedLocations ≠
    ({ testState with GrantedItems := ["DJ1"], CheckedLocations := ["DJ1"] } : ModState).CheckedLocations := by
  decide

/-- Helper: erasing one string from a list does not affect membership of
any other string. -/
theorem contains_filter_ne (l : List String) (id j : String) (hj : j ≠ id) :
    (l.filter (fun s => !(s == id))).contains j = l.contains j := by
  induction l with
  | nil => rfl
  | cons a t ih =>
    by_cases ha : a = id
    · subst ha
      have hja : (j == a) = false := by simp [hj]
      simp [List.filter_cons, List.contains_cons, hja, ih]
      exact fun h => absurd h hj
    · have hai : (a == id) = false := by simp [ha]
      simp [List.filter_cons, List.contains_cons, hai, ih, hj]

/-- C8 (amended): GrantItem leaves CheckedLocations unchanged; RevokeItem
removes exactly the revoked ID from CheckedLocations (membership of every
other ID is untouched). -/
theorem checked_mutation_scope (st : ModState) (id : String) :
    (grantItem st id).CheckedLocations = st.CheckedLocations ∧
    (revokeItem st id).CheckedLocations =
      st.CheckedLocations.filter (fun s => !(s == id)) ∧
    ∀ j, j ≠ id →
      (revokeItem st id).CheckedLocations.contains j =
        st.CheckedLocations.contains j := by
  refine ⟨rfl, rfl, ?_⟩
  intro j hj
  exact contains_filter_ne st.CheckedLocations id j hj

/-- Witness for C8 (amended) at a concrete state and ID. -/
theorem checked_mutation_scope_witness :
    (grantItem { testState with CheckedLocations := ["DJ1", "DJ2"] } "DJ2").CheckedLocations =
      ({ testState with CheckedLocations := ["DJ1", "DJ2"] } : ModState).CheckedLocations ∧
    (revokeItem { testState with CheckedLocations := ["DJ1", "DJ2"] } "DJ2").CheckedLocations =
      (["DJ1", "DJ2"] : List String).filter (fun s => !(s == "DJ2")) ∧
    (revokeItem { testState with CheckedLocations := ["DJ1", "DJ2"] } "DJ2").CheckedLocations.contains "DJ1" =
      (["DJ1", "DJ2"] : List String).contains "DJ1" := by
  have h := checked_mutation_scope
    { testState with CheckedLocations := ["DJ1", "DJ2"] } "DJ2"
  exact ⟨h.1, h.2.1, h.2.2 "DJ1" (by decide)⟩

/-- Processing one item never changes the applied table at any other
item. -/
theorem visItemStep_applied_other (sbc chk gr : String → Bool) (acc : VisOut)
    (id j : String) (hj : j ≠ id) :
    (visItemStep sbc chk gr acc id).applied j = acc.applied j := by
  simp only [visItemStep]
  split_ifs <;> simp [hj]

/-- After processing item id once, the applied table records its target
presentation when it has one. -/
theorem visItemStep_settles (sbc chk gr : String → Bool) (acc : VisOut)
    (id : String) :
    SettledAt sbc chk gr (visItemStep sbc chk gr acc id).applied id := by
  intro t ht
  simp only [visTarget] at ht
  simp only [visItemStep]
  by_cases h1 : sbc id
  · simp only [h1, if_true] at ht ⊢
    cases ht
    by_cases h2 : acc.applied id ≠ some Pres.visible <;> simp [h2]
    · simpa using not_not.mp h2
  · simp only [h1, if_false, Bool.false_eq_true] at ht ⊢
    by_cases h2 : chk id && !(gr id)
    · simp only [h2, if_true] at ht ⊢
      cases ht
      by_cases h3 : acc.applied id ≠ some Pres.hidden <;> simp [h3]
      · simpa using not_not.mp h3
    · simp [h2] at ht

/-- Processing any item preserves settledness of every item. -/
theorem visItemStep_preserves_settled (sbc chk gr : String → Bool)
    (acc : VisOut) (id j : String)
    (h : SettledAt sbc chk gr acc.applied j) :
    SettledAt sbc chk gr (visItemStep sbc chk gr acc id).applied j := by
  by_cases hj : j = id
  · subst hj; exact visItemStep_settles sbc chk gr acc j
  · intro t ht
    rw [visItemStep_applied_other sbc chk gr acc id j hj]
    exact h t ht

/-- Folding the loop body over any item list preserves settledness. -/
theorem visFold_preserves_settled (sbc chk gr : String → Bool)
    (ids : List String) (acc : VisOut) (j : String)
    (h : SettledAt sbc chk gr acc.applied j) :
    SettledAt sbc chk gr ((ids.foldl (visItemStep sbc chk gr) acc).applied) j := by
  induction ids generalizing acc with
  | nil => exact h
  | cons a rest ih =>
    exact ih _ (visItemStep_preserves_settled sbc chk gr acc a j h)

/-- Every item processed by the loop is settled afterwards. -/
theorem visFold_establishes_settled (sbc chk gr : String → Bool)
    (ids : List String) (acc : VisOut) (j : String) (hj : j ∈ ids) :
    SettledAt sbc chk gr ((ids.foldl (visItemStep sbc chk gr) acc).applied) j := by
  induction ids generalizing acc with
  | nil => cases hj
  | cons a rest ih =>
    rcases List.mem_cons.mp hj with h | h
    · subst h
      exact visFold_preserves_settled sbc chk gr rest _ j
        (visItemStep_settles sbc chk gr acc j)
    · exact ih (visItemStep sbc chk gr acc a) h

/-- On a settled item the loop body issues no presentation call and leaves
the applied table untouched (it may still count a TMap remove). -/
theorem visItemStep_noop (sbc chk gr : String → Bool) (acc : VisOut)
    (id : String) (h : SettledAt sbc chk gr acc.applied id) :
    (visItemStep sbc chk gr acc id).applied = acc.applied ∧
    (visItemStep sbc chk gr acc id).presCalls = acc.presCalls := by
  simp only [visItemStep]
  by_cases h1 : sbc id
  · have hv : acc.applied id = some Pres.visible := by
      apply h; simp [visTarget, h1]
    simp [h1, hv]
  · by_cases h2 : chk id && !(gr id)
    · have hv : acc.applied id = some Pres.hidden := by
        apply h; simp [visTarget, h1, h2]
      simp [h1, h2, hv]
    · simp [h1, h2]

/-- A full pass over items that are all settled issues zero presentation
calls and leaves the applied table unchanged. -/
theorem visFold_noop (sbc chk gr : String → Bool) (ids : List String)
    (acc : VisOut) (h : ∀ id ∈ ids, SettledAt sbc chk gr acc.applied id) :
    (ids.foldl (visItemStep sbc chk gr) acc).applied = acc.applied ∧
    (ids.foldl (visItemStep sbc chk gr) acc).presCalls = acc.presCalls := by
  induction ids generalizing acc with
  | nil => exact ⟨rfl, rfl⟩
  | cons a rest ih =>
    have hstep := visItemStep_noop sbc chk gr acc a (h a (List.mem_cons_self a rest))
    have hrest : ∀ id ∈ rest, SettledAt sbc chk gr
        (visItemStep sbc chk gr acc a).applied id := by
      intro id hid
      rw [hstep.1]
      exact h id (List.mem_cons_of_mem a hid)
    have := ih (visItemStep sbc chk gr acc a) hrest
    exact ⟨this.1.trans hstep.1, this.2.trans hstep.2⟩

/-- C9. Visibility non-thrash: with fixed classifiers (the checked and
granted classification of every item unchanged between two consecutive
visibility-loop iterations over the same actors), the second iteration
issues zero presentation (set-visible or set-hidden) calls, and leaves the
per-item last-applied table exactly as the first iteration left it, so all
later iterations are also silent. -/
theorem visibility_non_thrash (sbc chk gr : String → Bool)
    (applied0 : String → Option Pres) (ids : List String) :
    (visLoop sbc chk gr (visLoop sbc chk gr applied0 ids).applied ids).presCalls = 0 ∧
    (visLoop sbc chk gr (visLoop sbc chk gr applied0 ids).applied ids).applied =
      (visLoop sbc chk gr applied0 ids).applied := by
  have hset : ∀ id ∈ ids, SettledAt sbc chk gr
      (visLoop sbc chk gr applied0 ids).applied id := by
    intro id hid
    exact visFold_establishes_settled sbc chk gr ids _ id hid
  have h := visFold_noop sbc chk gr ids
    ⟨(visLoop sbc chk gr applied0 ids).applied, 0, 0⟩ (by intro id hid; exact hset id hid)
  exact ⟨h.2, h.1⟩

/-- A key found in the left part of an appended TMap is found in the
whole. -/
theorem tmapFind_append_left {m1 m2 : TetMap} {k : String} {v : Bool}
    (h : tmapFind m1 k = some v) : tmapFind (m1 ++ m2) k = some v := by
  induction m1 with
  | nil => cases h
  | cons q rest ih =>
    rw [List.cons_append]
    by_cases hq : q.1 = k
    · simp only [tmapFind, hq, if_pos rfl] at h ⊢
      exact h
    · simp only [tmapFind, hq, if_false] at h ⊢
      exact ih h

/-- Finding in an appended TMap when the key is absent on the left. -/
theorem tmapFind_append_right {m1 m2 : TetMap} {k : String}
    (h : tmapFind m1 k = none) : tmapFind (m1 ++ m2) k = tmapFind m2 k := by
  induction m1 with
  | nil => rfl
  | cons q rest ih =>
    rw [List.cons_append]
    by_cases hq : q.1 = k
    · simp [tmapFind, hq] at h
    · simp only [tmapFind, hq, if_false] at h ⊢
      exact ih h

/-- A key differing from every entry key is not found. -/
theorem tmapFind_eq_none {m : TetMap} {k : String}
    (h : ∀ q ∈ m, q.1 ≠ k) : tmapFind m k = none := by
  induction m with
  | nil => rfl
  | cons q rest ih =>
    have hq := h q (List.mem_cons_self q rest)
    simp only [tmapFind, hq, if_false]
    exact ih (fun r hr => h r (List.mem_cons_of_mem q hr))

/-- Conversely, an unfound key differs from every entry key. -/
theorem ne_of_tmapFind_eq_none {m : TetMap} {k : String}
    (h : tmapFind m k = none) : ∀ q ∈ m, q.1 ≠ k := by
  induction m with
  | nil => intro q hq; cases hq
  | cons q rest ih =>
    intro r hr
    by_cases hq : q.1 = k
    · simp [tmapFind, hq] at h
    · simp only [tmapFind, hq, if_false] at h
      rcases List.mem_cons.mp hr with h1 | h1
      · subst h1; exact hq
      · exact ih h r h1

/-- Finding a key after resetting every used flag to false. -/
theorem tmapFind_map_false (store : TetMap) (k : String) :
    tmapFind (store.map (fun q => (q.1, false))) k =
      (tmapFind store k).map (fun _ => false) := by
  induction store with
  | nil => rfl
  | cons q rest ih =>
    by_cases hq : q.1 = k <;> simp [tmapFind, hq, ih]

/-- The phase-3 map of EnforceCollectionState coincides with setting every
value to false. -/
theorem resetUsed_fst_eq (store : TetMap) :
    (resetUsed store).1 = store.map (fun q => (q.1, false)) := by
  unfold resetUsed
  simp only
  apply List.map_eq_map_iff.mpr
  intro q _
  rcases q with ⟨a, b⟩
  cases b <;> rfl

/-- Phase 3 is the identity, with zero writes, on a store whose used flags
are all clear. -/
theorem resetUsed_of_all_false (store : TetMap)
    (h : ∀ q ∈ store, q.2 = false) : resetUsed store = (store, 0) := by
  unfold resetUsed
  have h1 : store.map (fun q => if q.2 then (q.1, false) else q) = store := by
    conv_rhs => rw [← List.map_id store]
    apply List.map_eq_map_iff.mpr
    intro q hq
    simp [h q hq]
  have h2 : store.filter (fun q => q.2) = [] := by
    apply List.filter_eq_nil_iff.mpr
    intro q hq
    simp [h q hq]
  rw [h1, h2]
  rfl

/-- Every entry of the phase-3 result has a clear used flag. -/
theorem resetUsed_all_false (store : TetMap) :
    ∀ q ∈ (resetUsed store).1, q.2 = false := by
  rw [resetUsed_fst_eq]
  intro q hq
  obtain ⟨r, _, hr⟩ := List.mem_map.mp hq
  rw [← hr]

/-- Removing a list of keys one by one is filtering all of them out. -/
theorem removeAll_eq (ks : List String) :
    ∀ store : TetMap, ks.foldl tmapRemove store =
      store.filter (fun q => !(ks.contains q.1)) := by
  induction ks with
  | nil =>
    intro store
    simp only [List.foldl_nil, List.contains_nil]
    exact (List.filter_true store).symm
  | cons k rest ih =>
    intro store
    rw [List.foldl_cons, ih, tmapRemove, List.filter_filter]
    apply List.filter_congr
    intro q _
    simp only [List.contains_cons]
    cases h1 : q.1 == k <;> cases h2 : rest.contains q.1 <;> rfl

/-- Phase 1 of EnforceCollectionState filters out exactly the entries whose
key satisfies shouldRemoveKey. -/
theorem phase1_eq (st : ModState) (store : TetMap) :
    ((store.map Prod.fst).filter (shouldRemoveKey st)).foldl tmapRemove store =
      store.filter (fun q => !(shouldRemoveKey st q.1)) := by
  rw [removeAll_eq]
  apply List.filter_congr
  intro q hq
  congr 1
  by_cases hp : shouldRemoveKey st q.1 = true
  · have hmem : q.1 ∈ (store.map Prod.fst).filter (shouldRemoveKey st) :=
      List.mem_filter.mpr ⟨List.mem_map_of_mem Prod.fst hq, hp⟩
    rw [hp]
    exact List.elem_iff.mpr hmem
  · have hb : shouldRemoveKey st q.1 = false := by
      cases h : shouldRemoveKey st q.1
      · rfl
      · exact absurd h hp
    rw [hb]
    cases hc : ((store.map Prod.fst).filter (shouldRemoveKey st)).contains q.1
    · rfl
    · have := List.of_mem_filter (List.elem_iff.mp hc)
      rw [this] at hb
      cases hb

/-- The pair fold of phase 2 computes the same store as the store-only
fold. -/
theorem addGranted_fold_fst (ids : List String) :
    ∀ acc : TetMap × Nat,
      (ids.foldl addGrantedStep acc).1 = addGrantedStore acc.1 ids := by
  induction ids with
  | nil => intro acc; rfl
  | cons a rest ih =>
    intro acc
    rw [List.foldl_cons, ih]
    have hstep : (addGrantedStep acc a).1 =
        (if (tmapFind acc.1 (toGameKey a)).isSome then acc.1
         else tmapAdd acc.1 (toGameKey a) false) := by
      by_cases h : (tmapFind acc.1 (toGameKey a)).isSome <;>
        simp [addGrantedStep, h]
    rw [hstep]
    rw [addGrantedStore, addGrantedStore, List.foldl_cons]

/-- The store component of addGranted. -/
theorem addGranted_fst_eq (store : TetMap) (ids : List String) :
    (addGranted store ids).1 = addGrantedStore store ids :=
  addGranted_fold_fst ids (store, 0)

/-- Phase 2 only appends: the result is the input store followed by new
entries whose keys are game keys of granted IDs, all carrying the unused
value. -/
theorem addGrantedStore_append (ids : List String) :
    ∀ store : TetMap, ∃ extra, addGrantedStore store ids = store ++ extra ∧
      ∀ q ∈ extra, (∃ id, id ∈ ids ∧ q.1 = toGameKey id) ∧ q.2 = false := by
  induction ids with
  | nil =>
    intro store
    exact ⟨[], by simp [addGrantedStore], by intro q hq; cases hq⟩
  | cons a rest ih =>
    intro store
    by_cases h : (tmapFind store (toGameKey a)).isSome
    · obtain ⟨extra, he, hq⟩ := ih store
      refine ⟨extra, ?_, ?_⟩
      · rw [← he, addGrantedStore, addGrantedStore, List.foldl_cons, if_pos h]
      · intro q hqe
        obtain ⟨⟨id, hid, h1⟩, h2⟩ := hq q hqe
        exact ⟨⟨id, List.mem_cons_of_mem a hid, h1⟩, h2⟩
    · obtain ⟨extra, he, hq⟩ := ih (store ++ [(toGameKey a, false)])
      refine ⟨(toGameKey a, false) :: extra, ?_, ?_⟩
      · have hadd : tmapAdd store (toGameKey a) false =
            store ++ [(toGameKey a, false)] := by
          unfold tmapAdd
          rw [if_neg h]
        calc addGrantedStore store (a :: rest)
            = addGrantedStore (store ++ [(toGameKey a, false)]) rest := by
              rw [addGrantedStore, addGrantedStore, List.foldl_cons, if_neg h, hadd]
          _ = store ++ [(toGameKey a, false)] ++ extra := he
          _ = store ++ ((toGameKey a, false) :: extra) := by simp
      · intro q hqe
        rcases List.mem_cons.mp hqe with h1 | h1
        · subst h1
          exact ⟨⟨a, List.mem_cons_self a rest, rfl⟩, rfl⟩
        · obtain ⟨⟨id, hid, h2⟩, h3⟩ := hq q h1
          exact ⟨⟨id, List.mem_cons_of_mem a hid, h2⟩, h3⟩

/-- An entry present before phase 2 is still found, with its value, after
phase 2. -/
theorem addGrantedStore_preserves (ids : List String) (store : TetMap)
    (k : String) (v : Bool) (h : tmapFind store k = some v) :
    tmapFind (addGrantedStore store ids) k = some v := by
  obtain ⟨extra, he, _⟩ := addGrantedStore_append ids store
  rw [he]
  exact tmapFind_append_left h

/-- After phase 2 every granted game key is present. -/
theorem addGrantedStore_present (ids : List String) :
    ∀ store, ∀ id ∈ ids,
      (tmapFind (addGrantedStore store ids) (toGameKey id)).isSome = true := by
  induction ids with
  | nil => intro store id hid; cases hid
  | cons a rest ih =>
    intro store id hid
    have hstep : addGrantedStore store (a :: rest) =
        addGrantedStore (if (tmapFind store (toGameKey a)).isSome then store
          else tmapAdd store (toGameKey a) false) rest := by
      rw [addGrantedStore, addGrantedStore, List.foldl_cons]
    rcases List.mem_cons.mp hid with h1 | h1
    · subst h1
      by_cases h : (tmapFind store (toGameKey id)).isSome
      · rw [hstep, if_pos h]
        obtain ⟨v, hv⟩ := Option.isSome_iff_exists.mp h
        rw [addGrantedStore_preserves rest store _ v hv]
        rfl
      · rw [hstep, if_neg h]
        have hnone : tmapFind store (toGameKey id) = none :=
          Option.not_isSome_iff_eq_none.mp h
        have hadd : tmapAdd store (toGameKey id) false =
            store ++ [(toGameKey id, false)] := by
          unfold tmapAdd
          rw [if_neg h]
        have hfound : tmapFind (store ++ [(toGameKey id, false)]) (toGameKey id) =
            some false := by
          rw [tmapFind_append_right hnone]
          simp [tmapFind]
        rw [hadd, addGrantedStore_preserves rest _ _ false hfound]
        rfl
    · rw [hstep]
      exact ih _ id h1

/-- Phase 2 is the identity, with zero adds, when every granted game key is
already present. -/
theorem addGranted_noop (ids : List String) :
    ∀ store n,
      (∀ id ∈ ids, (tmapFind store (toGameKey id)).isSome = true) →
      ids.foldl addGrantedStep (store, n) = (store, n) := by
  induction ids with
  | nil => intro store n _; rfl
  | cons a rest ih =>
    intro store n h
    rw [List.foldl_cons]
    have ha := h a (List.mem_cons_self a rest)
    have hstep : addGrantedStep (store, n) a = (store, n) := by
      unfold addGrantedStep
      simp [ha]
    rw [hstep]
    exact ih store n (fun id hid => h id (List.mem_cons_of_mem a hid))

/-- A successful association-list lookup exhibits a member pair. -/
theorem lookup_pair_mem {l : List (String × String)} {k v : String}
    (h : l.lookup k = some v) : (k, v) ∈ l := by
  induction l with
  | nil => cases h
  | cons q rest ih =>
    rw [List.lookup] at h
    cases hk : (k == q.1) with
    | true =>
      simp only [hk] at h
      cases h
      have hkq : k = q.1 := by simpa using hk
      rw [hkq]
      exact List.mem_cons_self _ _
    | false =>
      simp only [hk] at h
      exact List.mem_cons_of_mem q (ih h)

/-- A key changed by FromGameKey translates to a star mod ID (the
translation table only contains star entries). -/
theorem fromGameKey_ne_star (k : String) (h : fromGameKey k ≠ k) :
    isStar (fromGameKey k) = true := by
  unfold fromGameKey at h ⊢
  cases hl : gameKeyToModId.lookup k with
  | none => rw [hl] at h; simp at h
  | some v =>
    simp only [Option.getD_some] at h ⊢
    have hmem : (k, v) ∈ gameKeyToModId := lookup_pair_mem hl
    have hall : ∀ q ∈ gameKeyToModId, isStar q.2 = true := by decide
    exact hall (k, v) hmem

/-- A granted ID whose game key is itself is never marked for removal. -/
theorem shouldRemoveKey_granted (st : ModState) (id : String)
    (hmem : id ∈ st.GrantedItems) : shouldRemoveKey st id = false := by
  unfold shouldRemoveKey
  by_cases hk : id = ""
  · simp [hk]
  · rw [if_neg hk]
    by_cases hrec : getLocationId (fromGameKey id) < 0
    · simp [hrec]
    · rw [if_neg hrec]
      by_cases hsig : (!st.RandomisePurpleSigils && isPurpleSigil (fromGameKey id)) = true
      · simp [hsig]
      · rw [if_neg hsig]
        by_cases hst : (!st.RandomiseStars && isStar (fromGameKey id)) = true
        · simp [hst]
        · rw [if_neg hst]
          have hc : st.GrantedItems.contains id = true := List.elem_iff.mpr hmem
          by_cases hstar : isStar (fromGameKey id) = true
          · simp [hstar, hc, hmem]
          · have heq : fromGameKey id = id := by
              by_contra hne
              exact hstar (fromGameKey_ne_star id hne)
            simp [hstar, heq, hc, hmem]

/-- A key whose translated ID is unrecognised is never marked for
removal. -/
theorem shouldRemoveKey_unrecognised (st : ModState) (k : String)
    (h : getLocationId (fromGameKey k) < 0) : shouldRemoveKey st k = false := by
  unfold shouldRemoveKey
  by_cases hk : k = ""
  · simp [hk]
  · rw [if_neg hk, if_pos h]

/-- EnforceCollectionState in the synced case, written out through the
phase lemmas. -/
theorem enforce_unfold (st : ModState) (store : TetMap)
    (hsync : st.APSynced = true) :
    enforceCollectionState st store =
      ⟨if st.ReusableTetrominos then
          (resetUsed (addGrantedStore
            (store.filter (fun q => !(shouldRemoveKey st q.1)))
            st.GrantedItems)).1
        else addGrantedStore
          (store.filter (fun q => !(shouldRemoveKey st q.1))) st.GrantedItems,
       ((store.map Prod.fst).filter (shouldRemoveKey st)).length,
       (addGranted (store.filter (fun q => !(shouldRemoveKey st q.1)))
         st.GrantedItems).2,
       if st.ReusableTetrominos then
          (resetUsed (addGrantedStore
            (store.filter (fun q => !(shouldRemoveKey st q.1)))
            st.GrantedItems)).2
        else 0⟩ := by
  simp only [enforceCollectionState, hsync, Bool.not_true, Bool.false_eq_true,
    if_false, phase1_eq]
  rw [← addGranted_fst_eq]
  cases hre : st.ReusableTetrominos <;> simp [hre]

/-- An unsynced pass is a complete no-op. -/
theorem enforce_notsync (st : ModState) (store : TetMap)
    (hsync : st.APSynced = false) :
    enforceCollectionState st store = ⟨store, 0, 0, 0⟩ := by
  unfold enforceCollectionState
  rw [hsync]
  rfl

/-- Postconditions of one synced pass whose granted stars are stored in
game-key form: no surviving entry is marked for removal, every granted game
key is present, and with ReusableTetrominos every used flag is clear. -/
theorem enforce_post (st : ModState) (store : TetMap)
    (hsync : st.APSynced = true)
    (hform : ∀ id ∈ st.GrantedItems, toGameKey id = id) :
    (∀ q ∈ (enforceCollectionState st store).store,
      shouldRemoveKey st q.1 = false) ∧
    (∀ id ∈ st.GrantedItems,
      (tmapFind (enforceCollectionState st store).store (toGameKey id)).isSome = true) ∧
    (st.ReusableTetrominos = true →
      ∀ q ∈ (enforceCollectionState st store).store, q.2 = false) := by
  rw [enforce_unfold st store hsync]
  dsimp only
  set store1 := store.filter (fun q => !(shouldRemoveKey st q.1)) with hstore1
  have hs2_pred : ∀ q ∈ addGrantedStore store1 st.GrantedItems,
      shouldRemoveKey st q.1 = false := by
    intro q hq
    obtain ⟨extra, he, hex⟩ := addGrantedStore_append st.GrantedItems store1
    rw [he] at hq
    rcases List.mem_append.mp hq with h1 | h1
    · have := List.of_mem_filter h1
      simpa using this
    · obtain ⟨⟨id, hid, hkey⟩, _⟩ := hex q h1
      rw [hkey, hform id hid]
      exact shouldRemoveKey_granted st id hid
  have hs2_present : ∀ id ∈ st.GrantedItems,
      (tmapFind (addGrantedStore store1 st.GrantedItems) (toGameKey id)).isSome = true :=
    fun id hid => addGrantedStore_present st.GrantedItems store1 id hid
  cases hre : st.ReusableTetrominos with
  | false =>
    simp only [hre, Bool.false_eq_true, if_false]
    exact ⟨hs2_pred, hs2_present, by intro h; cases h⟩
  | true =>
    simp only [hre, if_true]
    refine ⟨?_, ?_, ?_⟩
    · intro q hq
      rw [resetUsed_fst_eq] at hq
      obtain ⟨r, hr, hrq⟩ := List.mem_map.mp hq
      rw [← hrq]
      exact hs2_pred r hr
    · intro id hid
      rw [resetUsed_fst_eq, tmapFind_map_false]
      have h := hs2_present id hid
      cases hfind : tmapFind (addGrantedStore store1 st.GrantedItems) (toGameKey id) with
      | none => rw [hfind] at h; cases h
      | some v => rfl
    · intro _ q hq
      exact resetUsed_all_false _ q hq

/-- C4. Reconciliation idempotence: a second EnforceCollectionState pass
over the store produced by a first pass, with the same session state
(granted stars stored in game-key form, as grants resolved by the registry
always are), performs zero Remove, zero Add and zero used-flag writes and
leaves the store identical. -/
theorem reconciliation_idempotent (st : ModState) (store : TetMap)
    (hform : ∀ id ∈ st.GrantedItems, toGameKey id = id) :
    (enforceCollectionState st (enforceCollectionState st store).store).removes = 0 ∧
    (enforceCollectionState st (enforceCollectionState st store).store).adds = 0 ∧
    (enforceCollectionState st (enforceCollectionState st store).store).usedWrites = 0 ∧
    (enforceCollectionState st (enforceCollectionState st store).store).store =
      (enforceCollectionState st store).store := by
  cases hsync : st.APSynced with
  | false =>
    rw [enforce_notsync st _ hsync, enforce_notsync st store hsync]
    exact ⟨rfl, rfl, rfl, rfl⟩
  | true =>
    obtain ⟨hpred, hpres, hfalse⟩ := enforce_post st store hsync hform
    rw [enforce_unfold st (enforceCollectionState st store).store hsync]
    dsimp only
    have htr : ((enforceCollectionState st store).store.map Prod.fst).filter
        (shouldRemoveKey st) = [] := by
      apply List.filter_eq_nil_iff.mpr
      intro k hk
      obtain ⟨q, hq, hqk⟩ := List.mem_map.mp hk
      rw [← hqk]
      simp [hpred q hq]
    have hs1 : (enforceCollectionState st store).store.filter
        (fun q => !(shouldRemoveKey st q.1)) = (enforceCollectionState st store).store := by
      have h1 : ∀ q ∈ (enforceCollectionState st store).store,
          (!(shouldRemoveKey st q.1)) = (fun _ => true) q := by
        intro q hq
        simp [hpred q hq]
      rw [List.filter_congr h1, List.filter_true]
    have hng : st.GrantedItems.foldl addGrantedStep
        ((enforceCollectionState st store).store, 0) =
        ((enforceCollectionState st store).store, 0) :=
      addGranted_noop st.GrantedItems _ 0 (fun id hid => hpres id hid)
    have hgs : addGrantedStore (enforceCollectionState st store).store
        st.GrantedItems = (enforceCollectionState st store).store := by
      have := addGranted_fst_eq (enforceCollectionState st store).store st.GrantedItems
      rw [addGranted, hng] at this
      exact this.symm
    rw [hs1, htr, hgs]
    cases hre : st.ReusableTetrominos with
    | false =>
      simp only [Bool.false_eq_true, if_false]
      refine ⟨?_, ?_, ?_, ?_⟩ <;>
        first
          | rfl
          | trivial
          | rw [addGranted, hng]
    | true =>
      simp only [if_true]
      have hall : ∀ q ∈ (enforceCollectionState st store).store, q.2 = false :=
        hfalse hre
      rw [resetUsed_of_all_false _ hall]
      refine ⟨?_, ?_, ?_, ?_⟩ <;>
        first
          | rfl
          | trivial
          | rw [addGranted, hng]

/-- Witness for C4 at a concrete state and store: granted DJ1, a stale
used DJ2 entry, ReusableTetrominos on. -/
theorem reconciliation_idempotent_witness :
    (enforceCollectionState
      { testState with APSynced := true, ReusableTetrominos := true,
                       GrantedItems := ["DJ1"] }
      (enforceCollectionState
        { testState with APSynced := true, ReusableTetrominos := true,
                         GrantedItems := ["DJ1"] }
        [("DJ2", true)]).store).removes = 0 ∧
    (enforceCollectionState
      { testState with APSynced := true, ReusableTetrominos := true,
                       GrantedItems := ["DJ1"] }
      (enforceCollectionState
        { testState with APSynced := true, ReusableTetrominos := true,
                         GrantedItems := ["DJ1"] }
        [("DJ2", true)]).store).adds = 0 ∧
    (enforceCollectionState
      { testState with APSynced := true, ReusableTetrominos := true,
                       GrantedItems := ["DJ1"] }
      (enforceCollectionState
        { testState with APSynced := true, ReusableTetrominos := true,
                         GrantedItems := ["DJ1"] }
        [("DJ2", true)]).store).usedWrites = 0 ∧
    (enforceCollectionState
      { testState with APSynced := true, ReusableTetrominos := true,
                       GrantedItems := ["DJ1"] }
      (enforceCollectionState
        { testState with APSynced := true, ReusableTetrominos := true,
                         GrantedItems := ["DJ1"] }
        [("DJ2", true)]).store).store =
      (enforceCollectionState
        { testState with APSynced := true, ReusableTetrominos := true,
                         GrantedItems := ["DJ1"] }
        [("DJ2", true)]).store :=
  reconciliation_idempotent
    { testState with APSynced := true, ReusableTetrominos := true,
                     GrantedItems := ["DJ1"] }
    [("DJ2", true)] (by decide)

/-- C3. Reconciliation correctness: after one synced pass with both
randomised categories enabled and granted stars stored in game-key form,
every store entry whose translated ID is recognised but whose grant lookup
key is not granted has been removed, and every granted ID is present under
its game key; in particular the spec scenario with DJ1 granted and a store
of DJ1 and DJ2 ends with exactly the DJ1 entry. -/
theorem reconciliation_correctness :
    (∀ (st : ModState) (store : TetMap),
      st.APSynced = true →
      st.RandomisePurpleSigils = true →
      st.RandomiseStars = true →
      (∀ id ∈ st.GrantedItems, toGameKey id = id) →
      (∀ q ∈ store,
        ¬ getLocationId (fromGameKey q.1) < 0 →
        st.GrantedItems.contains
          (if isStar (fromGameKey q.1) then q.1 else fromGameKey q.1) = false →
        tmapFind (enforceCollectionState st store).store q.1 = none) ∧
      (∀ id ∈ st.GrantedItems,
        (tmapFind (enforceCollectionState st store).store (toGameKey id)).isSome = true)) ∧
    (enforceCollectionState scenarioState scenarioStore).store = [("DJ1", false)] := by
  constructor
  · intro st store hsync hsig hstars hform
    constructor
    · intro q hq hrec hnot
      have hkne : q.1 ≠ "" := by
        intro h
        rw [h] at hrec
        exact hrec (by decide)
      have hpred : shouldRemoveKey st q.1 = true := by
        unfold shouldRemoveKey
        rw [if_neg hkne, if_neg hrec]
        rw [if_neg (by simp [hsig]), if_neg (by simp [hstars])]
        simp only [hnot]
        rfl
      have hnone1 : tmapFind (store.filter (fun r => !(shouldRemoveKey st r.1))) q.1 = none := by
        apply tmapFind_eq_none
        intro r hr hrk
        have := List.of_mem_filter hr
        rw [hrk, hpred] at this
        cases this
      have hne_extra : ∀ gid ∈ st.GrantedItems, gid ≠ q.1 := by
        intro gid hgid heq
        rw [heq] at hgid
        have hc : st.GrantedItems.contains q.1 = true := List.elem_iff.mpr hgid
        by_cases hstar : isStar (fromGameKey q.1) = true
        · rw [if_pos hstar, hc] at hnot
          cases hnot
        · have hfg : fromGameKey q.1 = q.1 := by
            by_contra hne
            exact hstar (fromGameKey_ne_star q.1 hne)
          rw [if_neg hstar, hfg, hc] at hnot
          cases hnot
      have hnone2 : tmapFind (addGrantedStore
          (store.filter (fun r => !(shouldRemoveKey st r.1))) st.GrantedItems) q.1 = none := by
        obtain ⟨extra, he, hex⟩ :=
          addGrantedStore_append st.GrantedItems (store.filter (fun r => !(shouldRemoveKey st r.1)))
        rw [he, tmapFind_append_right hnone1]
        apply tmapFind_eq_none
        intro r hr
        obtain ⟨⟨id, hid, hkey⟩, _⟩ := hex r hr
        rw [hkey, hform id hid]
        exact hne_extra id hid
      rw [enforce_unfold st store hsync]
      dsimp only
      cases hre : st.ReusableTetrominos with
      | false =>
        simp only [Bool.false_eq_true, if_false]
        exact hnone2
      | true =>
        simp only [if_true]
        rw [resetUsed_fst_eq, tmapFind_map_false, hnone2]
        rfl
    · exact (enforce_post st store hsync hform).2.1
  · decide

/-- Witness for C3: the scenario state and store; the DJ2 entry (whose
lookup key DJ2 is not granted) is gone, the granted DJ1 is present. -/
theorem reconciliation_correctness_witness :
    tmapFind (enforceCollectionState scenarioState scenarioStore).store "DJ2" = none ∧
    (tmapFind (enforceCollectionState scenarioState scenarioStore).store
      (toGameKey "DJ1")).isSome = true := by
  have h := reconciliation_correctness.1 scenarioState scenarioStore rfl rfl rfl (by decide)
  exact ⟨h.1 ("DJ2", false) (by decide) (by decide) (by decide), h.2 "DJ1" (by decide)⟩

/-- C5 counterexample: with ReusableTetrominos enabled, phase 3 of
EnforceCollectionState resets the used flag of the store entry FOO even
though its translated ID is not recognised by the registry, so the pass
does modify an unrecognised entry. -/
theorem reusable_reset_touches_unrecognised :
    getLocationId (fromGameKey "FOO") < 0 ∧
    tmapFind [("FOO", true)] "FOO" = some true ∧
    tmapFind (enforceCollectionState
      { testState with APSynced := true, ReusableTetrominos := true }
      [("FOO", true)]).store "FOO" = some false := by
  decide

/-- C5 (amended): entries whose translated ID is unrecognised are never
removed or inserted by EnforceCollectionState (provided every granted ID
translates to a recognised ID, as all registry-resolved grants do), and
their used flag is untouched unless ReusableTetrominos is enabled, in
which case the phase-3 reset clears it like every other used flag. -/
theorem enforce_unrecognised_frame (st : ModState) (store : TetMap)
    (hg : ∀ id ∈ st.GrantedItems,
      ¬ getLocationId (fromGameKey (toGameKey id)) < 0) :
    (enforceCollectionState st store).store.filter
        (fun q => decide (getLocationId (fromGameKey q.1) < 0)) =
      (store.filter (fun q => decide (getLocationId (fromGameKey q.1) < 0))).map
        (fun q => (q.1, if st.APSynced && st.ReusableTetrominos then false else q.2)) := by
  have hmapid : ∀ l : TetMap, l.map (fun q : String × Bool => (q.1, q.2)) = l := by
    intro l
    have : (fun q : String × Bool => (q.1, q.2)) = id := funext fun q => rfl
    rw [this, List.map_id]
  cases hsync : st.APSynced with
  | false =>
    rw [enforce_notsync st store hsync]
    dsimp only
    simp only [Bool.false_and, Bool.false_eq_true, if_false]
    exact (hmapid _).symm
  | true =>
    have hfilter1 : (store.filter (fun q => !(shouldRemoveKey st q.1))).filter
        (fun q => decide (getLocationId (fromGameKey q.1) < 0)) =
        store.filter (fun q => decide (getLocationId (fromGameKey q.1) < 0)) := by
      rw [List.filter_filter]
      apply List.filter_congr
      intro q _
      cases hrec : decide (getLocationId (fromGameKey q.1) < 0) with
      | false => simp
      | true =>
        have := shouldRemoveKey_unrecognised st q.1 (of_decide_eq_true hrec)
        simp [this]
    have hfilter2 : (addGrantedStore (store.filter (fun q => !(shouldRemoveKey st q.1)))
        st.GrantedItems).filter (fun q => decide (getLocationId (fromGameKey q.1) < 0)) =
        store.filter (fun q => decide (getLocationId (fromGameKey q.1) < 0)) := by
      obtain ⟨extra, he, hex⟩ :=
        addGrantedStore_append st.GrantedItems (store.filter (fun q => !(shouldRemoveKey st q.1)))
      rw [he, List.filter_append, hfilter1]
      have hx : extra.filter (fun q => decide (getLocationId (fromGameKey q.1) < 0)) = [] := by
        apply List.filter_eq_nil_iff.mpr
        intro q hq
        obtain ⟨⟨gid, hgid, hkey⟩, _⟩ := hex q hq
        rw [hkey]
        simpa using hg gid hgid
      rw [hx, List.append_nil]
    rw [enforce_unfold st store hsync]
    dsimp only
    cases hre : st.ReusableTetrominos with
    | false =>
      simp only [Bool.false_eq_true, if_false, Bool.and_false]
      rw [hfilter2]
      exact (hmapid _).symm
    | true =>
      simp only [if_true, Bool.and_true]
      rw [resetUsed_fst_eq, List.filter_map]
      have hcong : (addGrantedStore (store.filter (fun q => !(shouldRemoveKey st q.1)))
          st.GrantedItems).filter
          ((fun q => decide (getLocationId (fromGameKey q.1) < 0)) ∘
            (fun q : String × Bool => (q.1, false))) =
          (addGrantedStore (store.filter (fun q => !(shouldRemoveKey st q.1)))
            st.GrantedItems).filter
          (fun q => decide (getLocationId (fromGameKey q.1) < 0)) :=
        List.filter_congr (fun q _ => rfl)
      rw [hcong, hfilter2]

/-- Witness for C5 (amended) at a concrete state: a used unrecognised BAR
entry and the granted, recognised DJ1. -/
theorem enforce_unrecognised_frame_witness :
    (enforceCollectionState
      { testState with APSynced := true, ReusableTetrominos := true,
                       GrantedItems := ["DJ1"] }
      [("BAR", true), ("DJ1", false)]).store.filter
        (fun q => decide (getLocationId (fromGameKey q.1) < 0)) =
      (([("BAR", true), ("DJ1", false)] : TetMap).filter
        (fun q => decide (getLocationId (fromGameKey q.1) < 0))).map
        (fun q => (q.1, if true && true then false else q.2)) :=
  enforce_unrecognised_frame
    { testState with APSynced := true, ReusableTetrominos := true,
                     GrantedItems := ["DJ1"] }
    [("BAR", true), ("DJ1", false)] (by decide)

end TalosAP
